import Mathlib

/-!
Verification development for the image QA annotator (src/VQA标注器.py).

The Python source is shallowly embedded: the drawing canvas
(class DrawingCanvas) becomes a state type with one Lean function per
event handler, the annotator session (class ImageQAAnnotator) becomes a
session-state type whose conversation lists live in an explicit heap
(Python lists are mutable references: `current_annotation` and the values
of `all_annotations` can alias after `save_annotations` assigns one to the
other without a copy), and the JSON (de)serialization of
`save_annotations` / `load_existing_annotations` becomes pure functions
between the in-memory model and a `SavedItem` representation of the file.
Floating point coordinates are modelled over ℚ; Python `int(...)` and
`round(...)` on numbers are modelled exactly (truncation toward zero and
round-half-to-even).

External collaborator semantics that the embedding relies on (Tk canvas,
Tk 8.6 `tkCanvPoly.c`): `create_polygon` raises `TclError`
("wrong # coordinates: expected at least 6") unless it is given an even
number of at least 6 coordinates, i.e. at least three points.  An
exception raised inside a Tkinter callback aborts the rest of the
handler (the remaining statements do not run, earlier mutations stay)
and is reported by the event loop without terminating the process.
-/

namespace VQA

/-- Embeds `DrawMode` (source lines 9-16): the shape kind enum with
members NONE, RECT, POLY, POINT. -/
inductive DrawMode
  | NONE
  | RECT
  | POLY
  | POINT
deriving DecidableEq, Repr

/-- Embeds Python `self.mode.name` on a `DrawMode` member: the member name
as a string, used by `save_annotations` (line 604). -/
def DrawMode.name : DrawMode → String
  | .NONE => "NONE"
  | .RECT => "RECT"
  | .POLY => "POLY"
  | .POINT => "POINT"

/-- Embeds Python `DrawMode[s]` lookup by member name, used by
`load_existing_annotations` (line 640); an unknown name raises `KeyError`,
modelled as `none`. -/
def DrawMode.ofName (s : String) : Option DrawMode :=
  if s = "NONE" then some .NONE
  else if s = "RECT" then some .RECT
  else if s = "POLY" then some .POLY
  else if s = "POINT" then some .POINT
  else none

/-- `min_zoom` attribute (line 171): 0.1. -/
def min_zoom : ℚ := 1/10

/-- `max_zoom` attribute (line 172): 5.0. -/
def max_zoom : ℚ := 5

/-! ## Coordinate transforms

`on_draw_finished` (line 429) and `show_qa_pair` (line 534) apply the
same affine map element-wise over the flattened coordinate list,
using `x_offset` at even indices and `y_offset` at odd indices. -/

/-- Index-aware map, the embedding of a Python
`[f(i, x) for i, x in enumerate(pts)]` comprehension starting at index
`n`. -/
def mapIndexed (f : Nat → ℚ → ℚ) : Nat → List ℚ → List ℚ
  | _, [] => []
  | n, x :: xs => f n x :: mapIndexed f (n + 1) xs

/-- Embeds line 429 of `on_draw_finished`: screen coordinates to
image-pixel coordinates, `(x - x_offset)/zoom_factor` at even indices and
`(x - y_offset)/zoom_factor` at odd indices. -/
def screenToImagePts (zf xo yo : ℚ) (pts : List ℚ) : List ℚ :=
  mapIndexed (fun i x => if i % 2 = 0 then (x - xo) / zf else (x - yo) / zf) 0 pts

/-- Embeds line 534 of `show_qa_pair`: image-pixel coordinates to screen
coordinates, `x*zoom_factor + x_offset` at even indices and
`x*zoom_factor + y_offset` at odd indices. -/
def imageToScreenPts (zf xo yo : ℚ) (pts : List ℚ) : List ℚ :=
  mapIndexed (fun i x => if i % 2 = 0 then x * zf + xo else x * zf + yo) 0 pts

/-- The single-point screen-to-image map realized by line 429 on one
`(x, y)` pair. -/
def toImageSpace (zf xo yo : ℚ) (p : ℚ × ℚ) : ℚ × ℚ :=
  ((p.1 - xo) / zf, (p.2 - yo) / zf)

/-- The single-point image-to-screen map realized by line 534 on one
`(x, y)` pair. -/
def toScreenSpace (zf xo yo : ℚ) (p : ℚ × ℚ) : ℚ × ℚ :=
  (p.1 * zf + xo, p.2 * zf + yo)

/-! ## Drawing canvas (class DrawingCanvas, lines 24-130) -/

/-- State of a `DrawingCanvas`: the attributes set in `__init__`
(lines 25-31) plus an id allocator standing for Tk's canvas item ids
(Tk allocates successive positive ids on each successful item
creation). `currentMode` is `none` for Python `None` (set at line 77)
and `some m` for a `DrawMode` member. -/
structure CanvasState where
  image_item : Option Nat
  currentMode : Option DrawMode
  currentPoints : List ℚ
  currentItem : Option Nat
  items : List Nat
  nextId : Nat
deriving DecidableEq, Repr

/-- The canvas as constructed by `__init__` (lines 25-31). -/
def initCanvas : CanvasState :=
  { image_item := none, currentMode := some .NONE, currentPoints := [],
    currentItem := none, items := [], nextId := 1 }

/-- Tk accepts a polygon only with an even number of at least six
coordinates (three points); otherwise `create_polygon` raises
`TclError`. -/
def polyCreateOk (pts : List ℚ) : Bool :=
  6 ≤ pts.length && pts.length % 2 == 0

/-- Embeds `clear_item` (lines 101-106): if a current item exists it is
deleted and `current_points` is cleared; otherwise nothing happens. -/
def CanvasState.clear_item (s : CanvasState) : CanvasState :=
  match s.currentItem with
  | some _ => { s with currentPoints := [], currentItem := none }
  | none => s

/-- Embeds `set_mode` (lines 33-37): stores the mode, clears
`current_points`, then calls `clear_item`. -/
def CanvasState.set_mode (s : CanvasState) (m : DrawMode) : CanvasState :=
  CanvasState.clear_item { s with currentMode := some m, currentPoints := [] }

/-- Embeds `on_left_click` (lines 39-55).  Returns early when the mode is
`DrawMode.NONE`; otherwise first `clear_item`, then per mode: RECT starts
a degenerate rectangle at the click, POLY extends `current_points` by the
click (the `create_polygon` call then raises `TclError` unless at least
three points have accumulated, so `current_item` is only assigned once
`polyCreateOk` holds — the raise aborts the handler after the extend),
POINT replaces the draft with the click. -/
def CanvasState.on_left_click (s : CanvasState) (x y : ℚ) : CanvasState :=
  if s.currentMode = some DrawMode.NONE then s
  else
    match s.clear_item.currentMode with
    | some DrawMode.RECT =>
        { s.clear_item with currentPoints := [x, y, x, y],
                            currentItem := some s.clear_item.nextId,
                            nextId := s.clear_item.nextId + 1 }
    | some DrawMode.POLY =>
        if polyCreateOk (s.clear_item.currentPoints ++ [x, y]) then
          { s.clear_item with currentPoints := s.clear_item.currentPoints ++ [x, y],
                              currentItem := some s.clear_item.nextId,
                              nextId := s.clear_item.nextId + 1 }
        else
          { s.clear_item with currentPoints := s.clear_item.currentPoints ++ [x, y] }
    | some DrawMode.POINT =>
        { s.clear_item with currentPoints := [x, y],
                            currentItem := some s.clear_item.nextId,
                            nextId := s.clear_item.nextId + 1 }
    | _ => s.clear_item

/-- Embeds `on_drag` (lines 57-61): with mode RECT and an active item,
`current_points[2:] = [event.x, event.y]`. -/
def CanvasState.on_drag (s : CanvasState) (x y : ℚ) : CanvasState :=
  if s.currentMode = some DrawMode.RECT then
    match s.currentItem with
    | some _ => { s with currentPoints := s.currentPoints.take 2 ++ [x, y] }
    | none => s
  else s

/-- Result dictionary built by `on_right_click` (lines 71-75): keys
`mode`, `points` (a copy), `draw_id`. -/
structure DrawResult where
  mode : DrawMode
  points : List ℚ
  draw_id : Nat
deriving DecidableEq, Repr

/-- Embeds `on_right_click` (lines 63-79): returns `None` when no item is
in progress or the mode is `DrawMode.NONE`.  For POLY the item is deleted
and re-created closed (a fresh id); the finished item is appended to
`items`; the result dictionary is returned and the draft state reset
(`current_mode` becomes Python `None`).  The `some _, none` branch
(item without an active mode) is unreachable: an item is only ever
created while a `DrawMode` is set. In the POLY branch `polyCreateOk`
always holds for a materialized draft (see `runCanvas_inv`); were it not
to, the re-creation would raise and abort with no result. -/
def CanvasState.on_right_click (s : CanvasState) : Option DrawResult × CanvasState :=
  match s.currentItem, s.currentMode with
  | none, _ => (none, s)
  | some _, none => (none, s)
  | some _, some DrawMode.NONE => (none, s)
  | some item, some m =>
    if m = DrawMode.POLY then
      if polyCreateOk s.currentPoints then
        (some ⟨m, s.currentPoints, s.nextId⟩,
         { s with items := s.items ++ [s.nextId], currentItem := none,
                  currentMode := none, currentPoints := [], nextId := s.nextId + 1 })
      else (none, s)
    else
      (some ⟨m, s.currentPoints, item⟩,
       { s with items := s.items ++ [item], currentItem := none,
                currentMode := none, currentPoints := [] })

/-- Embeds `clear_all` (lines 108-113): `clear_item`, then every
committed item is deleted and `items` emptied. -/
def CanvasState.clear_all (s : CanvasState) : CanvasState :=
  { s.clear_item with items := [] }

/-- Embeds `delete_item` (lines 115-122): removes the first occurrence of
`item_id` from `items` and reports success; unknown ids report `False`. -/
def CanvasState.delete_item (s : CanvasState) (id : Nat) : Bool × CanvasState :=
  if id ∈ s.items then (true, { s with items := s.items.erase id }) else (false, s)

/-- Embeds `reset` (lines 124-130): deletes everything and restores the
initial attribute values (Tk does not reuse item ids after `delete`). -/
def CanvasState.reset (s : CanvasState) : CanvasState :=
  { image_item := none, currentMode := some .NONE, currentPoints := [],
    currentItem := none, items := [], nextId := s.nextId }

/-- Embeds `load_image` (lines 81-85): creates the image item (display
only; offsets are not part of the canvas state we track). -/
def CanvasState.load_image (s : CanvasState) : CanvasState :=
  { s with image_item := some s.nextId, nextId := s.nextId + 1 }

/-- Embeds `load_draw` (lines 87-99): re-creates a committed shape from
stored coordinates.  RECT needs exactly 4 coordinates and POLY at least
6, otherwise control falls through to `return None` (line 96) with
nothing created; but a POLY call with at least 6 yet an odd number of
coordinates makes `create_polygon` raise `TclError`, and a POINT call
with fewer than two coordinates makes the unpacking `x, y = pts[:2]`
raise `ValueError` — both raises leave the canvas unchanged and abort
the caller, modelled as `.error`.  On success the new item is appended
to `items` and its id returned. -/
def CanvasState.load_draw (s : CanvasState) (mode : DrawMode) (pts : List ℚ) :
    Except String (Option Nat × CanvasState) :=
  if mode = DrawMode.RECT ∧ pts.length = 4 then
    .ok (some s.nextId, { s with items := s.items ++ [s.nextId], currentItem := none,
                                 nextId := s.nextId + 1 })
  else if mode = DrawMode.POLY ∧ 6 ≤ pts.length then
    if pts.length % 2 = 0 then
      .ok (some s.nextId, { s with items := s.items ++ [s.nextId], currentItem := none,
                                   nextId := s.nextId + 1 })
    else .error "TclError: wrong number of coordinates"
  else if mode = DrawMode.POINT then
    if 2 ≤ pts.length then
      .ok (some s.nextId, { s with items := s.items ++ [s.nextId], currentItem := none,
                                   nextId := s.nextId + 1 })
    else .error "ValueError: not enough values to unpack"
  else .ok (none, s)

/-- The events a `DrawingCanvas` can receive (its public methods). -/
inductive CanvasEvt
  | setMode (m : DrawMode)
  | leftClick (x y : ℚ)
  | drag (x y : ℚ)
  | rightClick
  | clearItem
  | clearAll
  | deleteItem (id : Nat)
  | resetCanvas
  | loadDraw (m : DrawMode) (pts : List ℚ)
  | loadImage
deriving DecidableEq, Repr

/-- One canvas event step. -/
def canvasStep (s : CanvasState) : CanvasEvt → CanvasState
  | .setMode m => s.set_mode m
  | .leftClick x y => s.on_left_click x y
  | .drag x y => s.on_drag x y
  | .rightClick => s.on_right_click.2
  | .clearItem => s.clear_item
  | .clearAll => s.clear_all
  | .deleteItem id => (s.delete_item id).2
  | .resetCanvas => s.reset
  | .loadDraw m pts =>
    match s.load_draw m pts with
    | .ok p => p.2
    | .error _ => s
  | .loadImage => s.load_image

/-- Runs a sequence of canvas events. -/
def runCanvas (s : CanvasState) (evts : List CanvasEvt) : CanvasState :=
  evts.foldl canvasStep s

/-- Canvas invariant: a materialized polygon draft always has at least
six coordinates in an even count (Tk refuses to create it otherwise). -/
def CanvasInv (s : CanvasState) : Prop :=
  s.currentMode = some DrawMode.POLY → s.currentItem ≠ none →
    polyCreateOk s.currentPoints = true


/-! ## Annotation data model (dataclasses, lines 132-152) -/

/-- Embeds the dataclass of lines 132-139 (named `VisualAnnotation` in
the source): one drawn shape with its flattened coordinates and mode. -/
structure VisualAnnot where
  coords : List ℚ
  mode : DrawMode
deriving DecidableEq, Repr

/-- Embeds the dataclass of lines 141-146 (named `QAAnnotation` in the
source): one conversation turn; `visual_refs` is `none` for Python
`None`. -/
structure QAAnnot where
  role : String
  text : String
  visual_refs : Option (List VisualAnnot)
deriving DecidableEq, Repr

/-! ## Python primitives -/

/-- Python `int(q)` on a number: truncation toward zero. -/
def pyInt (q : ℚ) : ℤ := q.num / (q.den : ℤ)

/-- Python 3 `round(q)` on a number: nearest integer, ties to even.
`q.num.fdiv q.den` is the floor of `q`. -/
def pythonRound (q : ℚ) : ℤ :=
  if q - (q.num.fdiv (q.den : ℤ) : ℚ) < 1/2 then q.num.fdiv (q.den : ℤ)
  else if (1 : ℚ)/2 < q - (q.num.fdiv (q.den : ℤ) : ℚ) then q.num.fdiv (q.den : ℤ) + 1
  else if q.num.fdiv (q.den : ℤ) % 2 = 0 then q.num.fdiv (q.den : ℤ)
  else q.num.fdiv (q.den : ℤ) + 1

/-- Python `str.strip()`: removes leading and trailing whitespace. -/
def pyStrip (s : String) : String :=
  ⟨((s.data.dropWhile Char.isWhitespace).reverse.dropWhile Char.isWhitespace).reverse⟩

/-- Python list indexing `l[i]`, with wrap-around for negative indices;
`none` stands for `IndexError`. -/
def pyGet {α : Type} (l : List α) (i : ℤ) : Option α :=
  if 0 ≤ i then l.get? i.toNat
  else if 0 ≤ i + l.length then l.get? (i + l.length).toNat
  else none

/-- Python `k in d` for an insertion-ordered dictionary. -/
def containsKey {α : Type} (l : List (String × α)) (k : String) : Bool :=
  l.any (fun p => p.1 == k)

/-- Python dictionary assignment `d[k] = v`: updates the value in place
for an existing key, appends a new key at the end. -/
def dictInsert {α : Type} (l : List (String × α)) (k : String) (v : α) :
    List (String × α) :=
  if containsKey l k then l.map (fun p => if p.1 == k then (k, v) else p)
  else l ++ [(k, v)]

/-- Python `d.get(k)`. -/
def lookupKey {α : Type} : List (String × α) → String → Option α
  | [], _ => none
  | p :: ps, k => if p.1 = k then some p.2 else lookupKey ps k

/-- Python `del d[k]`. -/
def removeKey {α : Type} (l : List (String × α)) (k : String) : List (String × α) :=
  l.filter (fun p => p.1 != k)

/-! ## Persistence format (save_annotations lines 592-614,
load_existing_annotations lines 621-648) -/

/-- One element of a turn's `visual_refs` array in `annotations.json`
(lines 603-606): the mode member name and integer-rounded coords. -/
structure SavedRef where
  mode : String
  coords : List ℤ
deriving DecidableEq, Repr

/-- One serialized conversation turn (lines 598-607): keys `from`,
`value`, and `visual_refs` present only when the in-memory list is
truthy (written as `none` when absent). -/
structure SavedTurn where
  from_ : String
  value : String
  visual_refs : Option (List SavedRef)
deriving DecidableEq, Repr

/-- One array element of `annotations.json` (lines 608-611). -/
structure SavedItem where
  image : String
  conversations : List SavedTurn
deriving DecidableEq, Repr

/-- Serializes one visual reference (lines 603-606):
`int(round(x))` on every coordinate. -/
def serializeRef (r : VisualAnnot) : SavedRef :=
  ⟨r.mode.name, r.coords.map pythonRound⟩

/-- Serializes one turn (lines 597-607): the `visual_refs` key is
written only when the attribute is truthy, i.e. neither `None` nor
`[]`. -/
def serializeTurn (qa : QAAnnot) : SavedTurn :=
  { from_ := qa.role, value := qa.text,
    visual_refs :=
      match qa.visual_refs with
      | some (r :: rs) => some ((r :: rs).map serializeRef)
      | _ => none }

/-- Serializes the whole `all_annotations` mapping (lines 594-611), in
dictionary iteration order. -/
def serializeAll (m : List (String × List QAAnnot)) : List SavedItem :=
  m.map (fun p => ⟨p.1, p.2.map serializeTurn⟩)

/-- Parses a `visual_refs` array (lines 638-642): `DrawMode[ref["mode"]]`
raises `KeyError` on an unknown member name, modelled as `none`; the
stored integers become the in-memory coordinates. -/
def parseRefs : List SavedRef → Option (List VisualAnnot)
  | [] => some []
  | r :: rs =>
    match DrawMode.ofName r.mode, parseRefs rs with
    | some m, some vs => some (⟨r.coords.map (fun c : ℤ => (c : ℚ)), m⟩ :: vs)
    | _, _ => none

/-- Parses the turns of one array element (lines 635-644): `visual_refs`
is `None` when the key is absent. -/
def parseConvs : List SavedTurn → Option (List QAAnnot)
  | [] => some []
  | t :: ts =>
    match t.visual_refs with
    | none =>
      match parseConvs ts with
      | some qs => some (⟨t.from_, t.value, none⟩ :: qs)
      | none => none
    | some refs =>
      match parseRefs refs, parseConvs ts with
      | some vs, some qs => some (⟨t.from_, t.value, some vs⟩ :: qs)
      | _, _ => none

/-- Parses a whole `annotations.json` array into the pre-existing
`all_annotations` dictionary (lines 634-645); a `KeyError` during
parsing aborts the load (the `except` at line 647), modelled as `none`
for the whole result. -/
def parseAnnotations : List SavedItem → List (String × List QAAnnot) →
    Option (List (String × List QAAnnot))
  | [], acc => some acc
  | it :: rest, acc =>
    match parseConvs it.conversations with
    | none => none
    | some convs => parseAnnotations rest (dictInsert acc it.image convs)

/-- Loading `annotations.json` into a fresh session, where
`all_annotations` starts empty. -/
def loadAnnotations (data : List SavedItem) : Option (List (String × List QAAnnot)) :=
  parseAnnotations data []

/-- The integer rounding one save applies to a reference. -/
def roundRef (r : VisualAnnot) : VisualAnnot :=
  ⟨r.coords.map (fun c => ((pythonRound c : ℤ) : ℚ)), r.mode⟩

/-- The effect of one save/load cycle on a turn: coordinates rounded,
everything else intact. -/
def roundTurn (qa : QAAnnot) : QAAnnot :=
  ⟨qa.role, qa.text, qa.visual_refs.map (List.map roundRef)⟩

/-- The effect of one save/load cycle on the whole mapping. -/
def roundMapping (m : List (String × List QAAnnot)) : List (String × List QAAnnot) :=
  m.map (fun p => (p.1, p.2.map roundTurn))

/-- The region list a Python truthiness test on `visual_refs` exposes:
empty both for `None` and for `[]`. -/
def refsList (qa : QAAnnot) : List VisualAnnot :=
  match qa.visual_refs with
  | some (r :: rs) => r :: rs
  | _ => []

/-- All region coordinates of the mapping are integral. -/
def IntCoords (m : List (String × List QAAnnot)) : Prop :=
  ∀ p ∈ m, ∀ qa ∈ p.2, ∀ r ∈ refsList qa, ∀ c ∈ r.coords, c.den = 1

/-! ## Annotator session (class ImageQAAnnotator, lines 154-716)

Python conversation lists are mutable objects: `current_annotation` and
the values of `all_annotations` are references that can alias (line 588
stores the working list itself, without a copy).  The lists therefore
live in an explicit `heap`; `all_annotations` maps filenames to heap
cells and `current_annotation_ref` is the cell the working list
occupies. -/

/-- One element of `current_draw_info`: the dictionaries appended by
`on_draw_finished` (lines 429-431, which sets the `is_Q` key) and by
`show_qa_pair` (lines 535-541, which does not).  A missing key is
`none`; `draw_id` is the canvas item id (`load_draw` can return
`None`). -/
structure DrawInfo where
  mode : DrawMode
  points : List ℚ
  draw_id : Option Nat
  is_Q : Option Bool
deriving DecidableEq, Repr

/-- The environment the annotator observes: the canvas widget size
(`winfo_width`/`winfo_height`) and the pixel sizes of the image files
that decode; a file missing from `imageSizes` stands for `Image.open`
raising. -/
structure Env where
  canvasW : ℤ
  canvasH : ℤ
  imageSizes : List (String × (ℤ × ℤ))
deriving DecidableEq, Repr

/-- Session state: the attributes of `__init__` (lines 160-173) plus the
ones created later (`images_folder`, offsets, the current image and its
scaled size).  `file_on_disk` is the content of `annotations.json`,
`none` while the file has never been written. -/
structure Session where
  images_folder : Option String
  image_files : List String
  heap : List (List QAAnnot)
  all_annotations : List (String × Nat)
  current_image_index : ℤ
  current_annotation_ref : Nat
  current_draw_info : List DrawInfo
  is_query_input : Bool
  zoom_factor : ℚ
  x_offset : ℚ
  y_offset : ℚ
  fit_to_window : Bool
  current_image_size : Option (ℤ × ℤ)
  current_img_width : ℤ
  current_img_height : ℤ
  canvas : CanvasState
  question_entry : String
  answer_entry : String
  status : String
  file_on_disk : Option (List SavedItem)
deriving DecidableEq, Repr

/-- Dereferences an `all_annotations` dictionary through a heap: the
value mapping it denotes. -/
def derefAll (heap : List (List QAAnnot)) (d : List (String × Nat)) :
    List (String × List QAAnnot) :=
  d.map (fun p => (p.1, heap.getD p.2 []))

/-- The value mapping `all_annotations` denotes in a session. -/
def viewAll (s : Session) : List (String × List QAAnnot) :=
  derefAll s.heap s.all_annotations

/-- The zoom factor computed by `fit_window` (lines 696-700): the min of
the two canvas/image ratios, clamped below at `min_zoom` and not clamped
above.  (`resize_draw_canvas`, lines 408-413, computes the same value;
its event binding is commented out at line 246.) -/
def fitWindowZoom (canvas_width canvas_height img_width img_height : ℤ) : ℚ :=
  if min ((canvas_width : ℚ) / (img_width : ℚ)) ((canvas_height : ℚ) / (img_height : ℚ))
      < min_zoom then min_zoom
  else min ((canvas_width : ℚ) / (img_width : ℚ)) ((canvas_height : ℚ) / (img_height : ℚ))

/-- The zoom-factor update of `zoom` (lines 667-672): 1.0 for
`scale_up = 0`, `min(zf*1.1, max_zoom)` zooming in, `max(zf/1.1,
min_zoom)` zooming out. -/
def zoomFactorStep (zf : ℚ) (scale_up : ℤ) : ℚ :=
  if scale_up = 0 then 1
  else if 0 < scale_up then min (zf * (11/10)) max_zoom
  else max (zf / (11/10)) min_zoom

/-- Embeds `fit_window` (lines 688-707): no-op without a current image;
otherwise recomputes the zoom factor (`fitWindowZoom`), the scaled image
size (`int(...)` truncation), centers the image with floor division
(Python `//`), and re-renders through `display_image` (lines 415-423: the
canvas is `reset` and the image item re-created).  `fit_to_window` is set
`True` at line 692 and back to `False` at line 707, so it ends
`false`. -/
def fit_window (env : Env) (s : Session) : Session :=
  match s.current_image_size with
  | none => s
  | some wh =>
    let zf := fitWindowZoom env.canvasW env.canvasH wh.1 wh.2
    let cw := pyInt ((wh.1 : ℚ) * zf)
    let ch := pyInt ((wh.2 : ℚ) * zf)
    { s with fit_to_window := false, zoom_factor := zf,
             current_img_width := cw, current_img_height := ch,
             x_offset := (((env.canvasW - cw).fdiv 2 : ℤ) : ℚ),
             y_offset := (((env.canvasH - ch).fdiv 2 : ℤ) : ℚ),
             canvas := s.canvas.reset.load_image }

/-- Embeds `load_current_image` (lines 381-401): returns early with no
files or an index at or past the end; a failing `Image.open` is caught
and reported with nothing else mutated; on success the stored
conversations are copied (`.copy()`, line 392) into a fresh heap cell
that becomes the working list, the viewport is recomputed by
`fit_window`, and the status updated.  (`update_qa_list` and
`update_image_list` only redraw list widgets; image decoding is the
`lookupKey env.imageSizes` lookup.) -/
def load_current_image (env : Env) (s : Session) : Session :=
  if s.image_files = [] ∨ (s.image_files.length : ℤ) ≤ s.current_image_index then s
  else
    match pyGet s.image_files s.current_image_index with
    | none => s
    | some file_name =>
      match lookupKey env.imageSizes file_name with
      | none => { s with status := "加载图像失败" }
      | some wh =>
        { fit_window env
            { s with
              current_image_size := some wh,
              heap := s.heap ++ [((lookupKey s.all_annotations file_name).map
                                    (fun r => s.heap.getD r [])).getD []],
              current_annotation_ref := s.heap.length }
          with status := "已加载: " ++ file_name }

/-- Embeds `jump2image` (lines 569-575): reports an out-of-bounds index
and changes nothing else; otherwise moves `current_image_index` and
reloads. -/
def jump2image (env : Env) (s : Session) (index : ℤ) : Session :=
  if (s.image_files.length : ℤ) ≤ index ∨ index < 0 then
    { s with status := toString index ++ "超出" }
  else
    load_current_image env { s with current_image_index := index }

/-- Embeds `save_annotations` (lines 577-618): warns without an open
folder; with an empty working list, deletes the in-memory entry for the
current file and returns — the file is NOT rewritten; otherwise stores
the working list object itself under the current filename (line 588, no
copy) and writes the serialization of the whole mapping to
`annotations.json`.  (An IndexError at line 582 on empty `image_files`
would abort before any mutation.) -/
def save_annotations (s : Session) : Session :=
  if s.images_folder = none ∨ s.images_folder = some "" then
    { s with status := "请先打开图像文件夹" }
  else
    match pyGet s.image_files s.current_image_index with
    | none => s
    | some file_name =>
      if s.heap.getD s.current_annotation_ref [] = [] then
        { s with all_annotations := removeKey s.all_annotations file_name }
      else
        { s with
          all_annotations := dictInsert s.all_annotations file_name s.current_annotation_ref,
          file_on_disk := some (serializeAll (derefAll s.heap
            (dictInsert s.all_annotations file_name s.current_annotation_ref))),
          status := "标注已保存" }

/-- Embeds `on_draw_finished` (lines 425-432): finishes the canvas
draft; when a shape comes back, its points are converted to image
pixels, the `is_Q` flag of the focused entry is attached, and the record
appended to `current_draw_info`. -/
def on_draw_finished (s : Session) : Session :=
  match s.canvas.on_right_click with
  | (none, canvas') => { s with canvas := canvas' }
  | (some r, canvas') =>
    { s with canvas := canvas',
             current_draw_info := s.current_draw_info ++
               [⟨r.mode, screenToImagePts s.zoom_factor s.x_offset s.y_offset r.points,
                 some r.draw_id, some s.is_query_input⟩],
             status := "完成绘制" }

/-- The partition loop of `add_qa_pair` (lines 453-460): builds the
question-region and answer-region lists in order; reading the `is_Q`
key of a record that lacks it raises `KeyError`. -/
def partitionDrawInfo : List DrawInfo → List VisualAnnot → List VisualAnnot →
    Except String (List VisualAnnot × List VisualAnnot)
  | [], vq, va => .ok (vq, va)
  | d :: ds, vq, va =>
    match d.is_Q with
    | none => .error "KeyError: is_Q"
    | some true => partitionDrawInfo ds (vq ++ [⟨d.points, d.mode⟩]) va
    | some false => partitionDrawInfo ds vq (va ++ [⟨d.points, d.mode⟩])

/-- Embeds `add_qa_pair` (lines 440-472): warns when either stripped text
is empty; partitions the pending regions by `is_Q` (a record without the
key raises `KeyError`, aborting before any state mutation); builds the
human and gpt turns (`refs or None`), extends the working conversation
list, and clears the pending regions, the canvas drawings and the entry
fields. -/
def add_qa_pair (s : Session) : Except String Session :=
  if pyStrip s.question_entry = "" ∨ pyStrip s.answer_entry = "" then
    .ok { s with status := "问题和回答不能为空" }
  else
    match partitionDrawInfo s.current_draw_info [] [] with
    | .error e => .error e
    | .ok (vq, va) =>
      .ok { s with
        heap := s.heap.set s.current_annotation_ref
          (s.heap.getD s.current_annotation_ref [] ++
            [⟨"human", pyStrip s.question_entry, if vq = [] then none else some vq⟩,
             ⟨"gpt", pyStrip s.answer_entry, if va = [] then none else some va⟩]),
        current_draw_info := [],
        canvas := s.canvas.clear_all,
        question_entry := "", answer_entry := "" }

/-- Embeds `delete_qa_pair` with an explicit pair index (lines 474-482):
`del current_annotation[index*2 : index*2+2]`, a slice delete, silently
clamped when out of range.  (From the UI button the index is the
selected listbox row `// 3`.) -/
def delete_qa_pair_at (s : Session) (index : Nat) : Session :=
  { s with
    heap := s.heap.set s.current_annotation_ref
      ((s.heap.getD s.current_annotation_ref []).take (index * 2) ++
        (s.heap.getD s.current_annotation_ref []).drop (index * 2 + 2)) }

/-- Embeds `clear_qa_pairs` (lines 484-488): on confirmation, empties
the working conversation list in place. -/
def clear_qa_pairs (s : Session) (confirmed : Bool) : Session :=
  if confirmed then { s with heap := s.heap.set s.current_annotation_ref [] }
  else s

/-- The rendering loop of `show_qa_pair` (lines 533-541): converts each
stored region to screen coordinates, re-creates it with `load_draw`, and
appends a record to `current_draw_info` — without an `is_Q` key.  The
`load_draw` call is evaluated while the appended dictionary is built, so
when it raises (`.error`) nothing is appended, the loop stops there, and
the exception propagates: the result pairs the state reached so far with
the raised exception, `none` when the loop ran to completion. -/
def renderRefs : Session → List VisualAnnot → Session × Option String
  | s, [] => (s, none)
  | s, ref :: rest =>
    match s.canvas.load_draw ref.mode
        (imageToScreenPts s.zoom_factor s.x_offset s.y_offset ref.coords) with
    | .error e => (s, some e)
    | .ok idAndCanvas =>
      renderRefs
        { s with
          canvas := idAndCanvas.2,
          current_draw_info := s.current_draw_info ++
            [⟨ref.mode, imageToScreenPts s.zoom_factor s.x_offset s.y_offset ref.coords,
              idAndCanvas.1, none⟩] }
        rest

/-- Embeds `show_qa_pair` (lines 525-541): reports an out-of-range
index; otherwise clears the canvas drawings and re-renders the regions
of element `index // 2 * 2` — the pair's human turn — when its
`visual_refs` is truthy.  The gpt turn of the pair is never consulted.
The second component is an exception raised by the rendering loop
(which aborts the handler), `none` on normal completion. -/
def show_qa_pair (s : Session) (index : ℤ) : Session × Option String :=
  if index < 0 ∨ ((s.heap.getD s.current_annotation_ref []).length : ℤ) ≤ index then
    ({ s with status := "标注" ++ toString index ++ "超出" }, none)
  else
    match pyGet (s.heap.getD s.current_annotation_ref []) (index.fdiv 2 * 2) with
    | none => ({ s with canvas := s.canvas.clear_all }, none)
    | some ann =>
      match ann.visual_refs with
      | some (r :: rs) => renderRefs { s with canvas := s.canvas.clear_all } (r :: rs)
      | _ => ({ s with canvas := s.canvas.clear_all }, none)

/-- Embeds `edit_qa_pair` (lines 490-505): with a selected listbox row,
the pair index is `row // 3`; the pair's texts are placed into the entry
fields, its regions re-rendered through `show_qa_pair (index*2)`, and
the pair removed.  An exception raised inside `show_qa_pair` aborts the
handler before the `delete_qa_pair` call, leaving the partial state.
(A selection row beyond the data would raise an uncaught IndexError at
line 499; no claim exercises that corner and it is modelled as a
no-op.) -/
def edit_qa_pair (s : Session) (selected : Option Nat) : Session :=
  match selected with
  | none => s
  | some row =>
    match pyGet (s.heap.getD s.current_annotation_ref []) ((row / 3 * 2 : Nat) : ℤ),
          pyGet (s.heap.getD s.current_annotation_ref []) ((row / 3 * 2 + 1 : Nat) : ℤ) with
    | some q, some a =>
      match show_qa_pair { s with question_entry := q.text, answer_entry := a.text }
          ((row / 3 * 2 : Nat) : ℤ) with
      | (s', none) => delete_qa_pair_at s' (row / 3)
      | (s', some _) => s'
    | _, _ => s

/-- The conversation-editing operations of the session that touch only
the working copy: committing a pair (typing the two texts, then
`add_qa_pair`; a `KeyError` leaves the state as typed), deleting a pair,
clearing all pairs (confirmed), editing a pair. -/
inductive EditOp
  | add (question answer : String)
  | del (index : Nat)
  | clearPairs
  | edit (row : Nat)
deriving DecidableEq, Repr

/-- Applies one editing operation. -/
def applyEdit (s : Session) : EditOp → Session
  | .add q a =>
    match add_qa_pair { s with question_entry := q, answer_entry := a } with
    | .ok s' => s'
    | .error _ => { s with question_entry := q, answer_entry := a }
  | .del i => delete_qa_pair_at s i
  | .clearPairs => clear_qa_pairs s true
  | .edit row => edit_qa_pair s (some row)

/-- The working list is not aliased by any `all_annotations` entry (true
right after `load_current_image` installs a fresh copy, false right
after a non-empty `save_annotations` stores the working list itself). -/
def NoAlias (s : Session) : Prop :=
  ∀ p ∈ s.all_annotations, p.2 ≠ s.current_annotation_ref

/-- Every `all_annotations` reference points into the heap. -/
def RefsBounded (s : Session) : Prop :=
  ∀ p ∈ s.all_annotations, p.2 < s.heap.length

/-- The observable content of a pending-region record: everything but
the canvas item id. -/
def drawProj (d : DrawInfo) : DrawMode × List ℚ × Option Bool :=
  (d.mode, d.points, d.is_Q)

/-- The record content `show_qa_pair` produces for one stored region. -/
def projRendered (zf xo yo : ℚ) (r : VisualAnnot) : DrawMode × List ℚ × Option Bool :=
  (r.mode, imageToScreenPts zf xo yo r.coords, none)

/-- The stored region's arity does not hit a raising branch of
`load_draw` when re-displayed: not a POLY with an odd count of at least
six coordinates (Tk raises `TclError`) and not a POINT with fewer than
two coordinates (`ValueError` on unpacking).  The screen conversion is
length-preserving, so the condition can be read off the stored
coordinates. -/
@[reducible] def refRenderOk (r : VisualAnnot) : Prop :=
  ¬ (r.mode = DrawMode.POLY ∧ 6 ≤ r.coords.length ∧ r.coords.length % 2 = 1)
  ∧ ¬ (r.mode = DrawMode.POINT ∧ r.coords.length < 2)

/-! ## Concrete fixtures -/

/-- A neutral base session: one open folder holding one image file, an
empty working list in heap cell 0, nothing annotated or saved yet. -/
def session0 : Session :=
  { images_folder := some "folder", image_files := ["a.png"], heap := [[]],
    all_annotations := [], current_image_index := 0, current_annotation_ref := 0,
    current_draw_info := [], is_query_input := false, zoom_factor := 1,
    x_offset := 0, y_offset := 0, fit_to_window := true, current_image_size := none,
    current_img_width := 0, current_img_height := 0, canvas := initCanvas,
    question_entry := "", answer_entry := "", status := "", file_on_disk := none }

/-- A concrete environment for witnesses. -/
def env0 : Env :=
  { canvasW := 100, canvasH := 100, imageSizes := [("a.png", (10, 10))] }

/-- Session of the C1 counterexample: the current image was annotated
and saved earlier (entry at heap cell 1 and in the persisted file), and
the working copy (cell 0) has since been emptied. -/
def sessionC1 : Session :=
  { session0 with
    heap := [[], [⟨"human", "old", none⟩]],
    all_annotations := [("a.png", 1)],
    file_on_disk := some (serializeAll [("a.png", [⟨"human", "old", none⟩])]) }

/-- Mapping for the C4 witness: one image, a human turn with a rectangle
region at integer coordinates and a gpt turn without regions. -/
def mExample : List (String × List QAAnnot) :=
  [("a.png", [⟨"human", "Q", some [⟨[1, 2, 3, 4], .RECT⟩]⟩, ⟨"gpt", "A", none⟩])]

/-- Session for the C7 witness: a previously saved annotation at heap
cell 1, current working copy in the distinct cell 0. -/
def sessionC7 : Session :=
  { session0 with
    heap := [[], [⟨"human", "old", none⟩, ⟨"gpt", "oldA", none⟩]],
    all_annotations := [("a.png", 1)] }

/-- Session of the C8 counterexample: the pair's gpt turn carries a
point region, the human turn carries none. -/
def sessionC8 : Session :=
  { session0 with
    heap := [[⟨"human", "Q", none⟩, ⟨"gpt", "A", some [⟨[3, 4], .POINT⟩]⟩]] }

/-- Session for the C8 witness: the pair's human turn carries a
rectangle region. -/
def sessionC8b : Session :=
  { session0 with
    heap := [[⟨"human", "Q", some [⟨[1, 2, 3, 4], .RECT⟩]⟩, ⟨"gpt", "A", none⟩]] }

/-- Session of the C10 failing input: one committed pair whose human
turn carries a rectangle region, about to be edited and resubmitted. -/
def sessionC10 : Session :=
  { session0 with
    heap := [[⟨"human", "Q", some [⟨[1, 2, 3, 4], .RECT⟩]⟩, ⟨"gpt", "A", none⟩]] }

-- THEOREMS-MARKER

@[simp] theorem clear_item_currentItem (s : CanvasState) : s.clear_item.currentItem = none := by
  unfold CanvasState.clear_item; split <;> simp_all

@[simp] theorem clear_item_currentMode (s : CanvasState) :
    s.clear_item.currentMode = s.currentMode := by
  unfold CanvasState.clear_item; split <;> rfl

theorem canvasInv_of_item_none {t : CanvasState} (h : t.currentItem = none) : CanvasInv t :=
  fun _ hne => absurd h hne

theorem canvasInv_of_mode {t : CanvasState} (h : t.currentMode ≠ some DrawMode.POLY) :
    CanvasInv t :=
  fun hm _ => absurd hm h

theorem canvasInv_init : CanvasInv initCanvas :=
  canvasInv_of_item_none rfl

theorem load_draw_cases (s : CanvasState) (m : DrawMode) (pts : List ℚ) :
    ∀ r, s.load_draw m pts = .ok r → r.2 = s ∨ r.2.currentItem = none := by
  intro r h
  unfold CanvasState.load_draw at h
  split at h
  · cases h; right; rfl
  · split at h
    · split at h
      · cases h; right; rfl
      · cases h
    · split at h
      · split at h
        · cases h; right; rfl
        · cases h
      · cases h; left; rfl

theorem canvasInv_step (s : CanvasState) (e : CanvasEvt) (hs : CanvasInv s) :
    CanvasInv (canvasStep s e) := by
  cases e with
  | setMode m =>
    exact canvasInv_of_item_none (clear_item_currentItem _)
  | leftClick x y =>
    show CanvasInv (s.on_left_click x y)
    unfold CanvasState.on_left_click
    split
    · exact hs
    · split
      · next heq =>
        rw [clear_item_currentMode] at heq
        exact canvasInv_of_mode (by simp [clear_item_currentMode, heq])
      · split
        · next hok => exact fun _ _ => hok
        · exact canvasInv_of_item_none (clear_item_currentItem s)
      · next heq =>
        rw [clear_item_currentMode] at heq
        exact canvasInv_of_mode (by simp [clear_item_currentMode, heq])
      · exact canvasInv_of_item_none (clear_item_currentItem s)
  | drag x y =>
    show CanvasInv (s.on_drag x y)
    unfold CanvasState.on_drag
    split
    · next hrect =>
      split
      · exact canvasInv_of_mode (by simp [hrect])
      · exact hs
    · exact hs
  | rightClick =>
    show CanvasInv s.on_right_click.2
    unfold CanvasState.on_right_click
    split
    · exact hs
    · exact hs
    · exact hs
    · split
      · split
        · exact canvasInv_of_item_none rfl
        · exact hs
      · exact canvasInv_of_item_none rfl
  | clearItem =>
    exact canvasInv_of_item_none (clear_item_currentItem _)
  | clearAll =>
    exact canvasInv_of_item_none (clear_item_currentItem s)
  | deleteItem id =>
    show CanvasInv (s.delete_item id).2
    unfold CanvasState.delete_item
    split
    · intro hmode hitem; exact hs hmode hitem
    · exact hs
  | resetCanvas =>
    exact canvasInv_of_item_none rfl
  | loadDraw m pts =>
    show CanvasInv (match s.load_draw m pts with | .ok p => p.2 | .error _ => s)
    rcases hld : s.load_draw m pts with e | r
    · exact hs
    · rcases load_draw_cases s m pts r hld with hsame | hnone
      · simp only [hld]
        rw [hsame]
        exact hs
      · simp only [hld]
        exact canvasInv_of_item_none hnone
  | loadImage =>
    intro hmode hitem; exact hs hmode hitem

theorem runCanvas_inv (evts : List CanvasEvt) : CanvasInv (runCanvas initCanvas evts) := by
  suffices h : ∀ s, CanvasInv s → CanvasInv (runCanvas s evts) from h _ canvasInv_init
  induction evts with
  | nil => intro s hs; exact hs
  | cons e rest ih =>
    intro s hs
    exact ih _ (canvasInv_step s e hs)

/-! ## Coordinate transform round trips -/

theorem mapIndexed_inv (f g : Nat → ℚ → ℚ) (h : ∀ i x, g i (f i x) = x) :
    ∀ (n : Nat) (pts : List ℚ), mapIndexed g n (mapIndexed f n pts) = pts := by
  intro n pts
  induction pts generalizing n with
  | nil => rfl
  | cons p rest ih => simp [mapIndexed, h, ih]

/-- C3: for every zoom factor inside the clamp interval (hence nonzero)
and any pan offsets, the screen-to-image map applied element-wise by the
finish-drawing path (`on_draw_finished`) and the image-to-screen map
applied element-wise by the region re-display path (`show_qa_pair`) are
exact inverses over ℚ, on single points and on flattened coordinate
lists. -/
theorem transform_roundtrip (zf xo yo : ℚ) (h1 : min_zoom ≤ zf) (_h2 : zf ≤ max_zoom) :
    (∀ p : ℚ × ℚ, toImageSpace zf xo yo (toScreenSpace zf xo yo p) = p
        ∧ toScreenSpace zf xo yo (toImageSpace zf xo yo p) = p)
    ∧ ∀ pts : List ℚ, screenToImagePts zf xo yo (imageToScreenPts zf xo yo pts) = pts
        ∧ imageToScreenPts zf xo yo (screenToImagePts zf xo yo pts) = pts := by
  have hz : zf ≠ 0 := by
    intro h
    rw [h] at h1
    norm_num [min_zoom] at h1
  refine ⟨fun p => ⟨?_, ?_⟩, fun pts => ⟨?_, ?_⟩⟩
  · simp [toImageSpace, toScreenSpace, hz]
  · simp [toImageSpace, toScreenSpace, hz]
  · simpa [screenToImagePts, imageToScreenPts] using
      mapIndexed_inv _ _ (fun i x => by by_cases hi : i % 2 = 0 <;> simp [hi, hz]) 0 pts
  · simpa [screenToImagePts, imageToScreenPts] using
      mapIndexed_inv _ _ (fun i x => by by_cases hi : i % 2 = 0 <;> simp [hi, hz]) 0 pts

/-- C3 witness: the round trip at zoom 1 and offsets (2, 3). -/
theorem transform_roundtrip_witness :
    toImageSpace 1 2 3 (toScreenSpace 1 2 3 (4, 5)) = (4, 5)
    ∧ screenToImagePts 1 2 3 (imageToScreenPts 1 2 3 [6, 7, 8]) = [6, 7, 8] :=
  ⟨((transform_roundtrip 1 2 3 (by norm_num [min_zoom]) (by norm_num [max_zoom])).1 (4, 5)).1,
   ((transform_roundtrip 1 2 3 (by norm_num [min_zoom]) (by norm_num [max_zoom])).2 [6, 7, 8]).1⟩

/-! ## Polygon drafting -/

/-- C2 (code bug): in polygon mode, the three clicks of the claim's
scenario followed by a commit do yield the triangle — but a fourth click
does not preserve the previously clicked vertices: `clear_item` at the
start of `on_left_click` wipes `current_points` once a draft item
exists, so after the fourth click the draft holds only `[20, 20]`
instead of `[0, 0, 10, 0, 5, 10, 20, 20]`.  Polygons with more than
three vertices can never be drawn, contradicting the handler's own
docstring (source line 41). -/
theorem poly_fourth_click_discards_vertices :
    (runCanvas initCanvas
        [.setMode .POLY, .leftClick 0 0, .leftClick 10 0, .leftClick 5 10]).on_right_click.1
      = some ⟨DrawMode.POLY, [0, 0, 10, 0, 5, 10], 2⟩
    ∧ (runCanvas initCanvas
        [.setMode .POLY, .leftClick 0 0, .leftClick 10 0, .leftClick 5 10,
         .leftClick 20 20]).currentPoints = [20, 20] := by
  constructor <;> decide

/-- C5: in polygon mode, committing while the draft has fewer than three
vertices (six coordinates) is a no-op in every reachable canvas state:
no shape is returned, nothing joins the committed items, the state is
unchanged — the draft item was never created because the canvas refuses
polygons with fewer than three points. -/
theorem poly_commit_under_three_vertices_noop (evts : List CanvasEvt)
    (hmode : (runCanvas initCanvas evts).currentMode = some DrawMode.POLY)
    (hlen : (runCanvas initCanvas evts).currentPoints.length < 6) :
    (runCanvas initCanvas evts).on_right_click = (none, runCanvas initCanvas evts) := by
  rcases hi : (runCanvas initCanvas evts).currentItem with _ | i
  · unfold CanvasState.on_right_click
    rw [hi]
  · exfalso
    have hp := runCanvas_inv evts hmode (by simp [hi])
    simp only [polyCreateOk, Bool.and_eq_true, decide_eq_true_eq, beq_iff_eq] at hp
    omega

/-- C5 witness: two polygon clicks, then commit — no shape, no change. -/
theorem poly_commit_under_three_vertices_noop_witness :
    (runCanvas initCanvas [.setMode .POLY, .leftClick 0 0, .leftClick 1 0]).on_right_click
      = (none, runCanvas initCanvas [.setMode .POLY, .leftClick 0 0, .leftClick 1 0]) :=
  poly_commit_under_three_vertices_noop
    [.setMode .POLY, .leftClick 0 0, .leftClick 1 0] (by decide) (by decide)

/-! ## Zoom clamping -/

/-- C6 counterexample: fit-to-window for a 1×1 image on a 1000×800
canvas sets the zoom factor to 800, far above `max_zoom`; `fit_window`
clamps only below. -/
theorem fit_window_exceeds_max_zoom :
    fitWindowZoom 1000 800 1 1 = 800 ∧ ¬ fitWindowZoom 1000 800 1 1 ≤ max_zoom := by
  have h : fitWindowZoom 1000 800 1 1 = 800 := by
    unfold fitWindowZoom min_zoom
    norm_num [min_def]
  exact ⟨h, by rw [h]; norm_num [max_zoom]⟩

/-- C6 (amended): the wheel-zoom / reset-zoom update keeps the zoom
factor inside `[min_zoom, max_zoom]` whenever it starts there, while
fit-to-window (and the unbound canvas-resize handler, which computes the
same value) guarantees only the lower bound. -/
theorem zoom_clamping (zf : ℚ) (su : ℤ) (h1 : min_zoom ≤ zf) (h2 : zf ≤ max_zoom) :
    (min_zoom ≤ zoomFactorStep zf su ∧ zoomFactorStep zf su ≤ max_zoom)
    ∧ ∀ cw ch iw ih : ℤ, min_zoom ≤ fitWindowZoom cw ch iw ih := by
  unfold min_zoom at h1
  unfold max_zoom at h2
  constructor
  · unfold zoomFactorStep min_zoom max_zoom
    split
    · norm_num
    · split
      · constructor
        · refine le_min ?_ (by norm_num)
          nlinarith
        · exact min_le_right _ _
      · constructor
        · exact le_max_right _ _
        · refine max_le ?_ (by norm_num)
          have hd : zf / (11/10) ≤ zf := div_le_self (by linarith) (by norm_num)
          linarith
  · intro cw ch iw ih
    unfold fitWindowZoom
    split
    · exact le_refl _
    · next h => exact le_of_not_lt h

/-- C6 witness: one wheel zoom-in step from zoom 1 stays clamped. -/
theorem zoom_clamping_witness :
    min_zoom ≤ zoomFactorStep 1 1 ∧ zoomFactorStep 1 1 ≤ max_zoom :=
  (zoom_clamping 1 1 (by norm_num [min_zoom]) (by norm_num [max_zoom])).1

/-! ## Navigation bounds -/

theorem fit_window_index (env : Env) (s : Session) :
    (fit_window env s).current_image_index = s.current_image_index := by
  unfold fit_window
  split <;> rfl

theorem load_current_image_index (env : Env) (s : Session) :
    (load_current_image env s).current_image_index = s.current_image_index := by
  unfold load_current_image
  split
  · rfl
  · split
    · rfl
    · split
      · rfl
      · simp [fit_window_index]

/-- C9: `jump2image` with an index below 0 or at/past the image count
reports the overflow and leaves `current_image_index` unchanged; with an
in-bounds index it makes that index current. -/
theorem jump2image_bounds (env : Env) (s : Session) (i : ℤ) :
    ((i < 0 ∨ (s.image_files.length : ℤ) ≤ i) →
        (jump2image env s i).current_image_index = s.current_image_index
        ∧ (jump2image env s i).status = toString i ++ "超出")
    ∧ (0 ≤ i → i < (s.image_files.length : ℤ) →
        (jump2image env s i).current_image_index = i) := by
  constructor
  · intro h
    unfold jump2image
    rw [if_pos h.symm]
    exact ⟨rfl, rfl⟩
  · intro h0 hlt
    unfold jump2image
    rw [if_neg (by omega), load_current_image_index]

/-- C9 witness: jumping to 5 in a one-image session leaves index 0. -/
theorem jump2image_bounds_witness :
    (jump2image env0 session0 5).current_image_index = session0.current_image_index :=
  ((jump2image_bounds env0 session0 5).1 (Or.inr (by decide))).1

/-! ## Saving with an empty working list -/

theorem lookupKey_removeKey_self {α : Type} (l : List (String × α)) (k : String) :
    lookupKey (removeKey l k) k = none := by
  induction l with
  | nil => rfl
  | cons p ps ih =>
    simp only [removeKey, List.filter_cons] at *
    by_cases h : p.1 = k
    · simp [h, ih]
    · simp [h, lookupKey, ih]

theorem lookupKey_removeKey_ne {α : Type} (l : List (String × α)) (k g : String)
    (hg : g ≠ k) : lookupKey (removeKey l k) g = lookupKey l g := by
  induction l with
  | nil => rfl
  | cons p ps ih =>
    simp only [removeKey, List.filter_cons] at *
    by_cases h : p.1 = k
    · simp [h, lookupKey, Ne.symm hg, ih]
    · simp [h, lookupKey, ih]

/-- C1 counterexample: with the working list empty, `save_annotations`
removes the in-memory entry for the current image but returns without
writing, so the persisted file still holds the image's prior entry
instead of losing it. -/
theorem save_empty_does_not_rewrite_file :
    lookupKey (save_annotations sessionC1).all_annotations "a.png" = none
    ∧ (save_annotations sessionC1).file_on_disk = sessionC1.file_on_disk
    ∧ sessionC1.file_on_disk = some [⟨"a.png", [⟨"human", "old", none⟩]⟩] := by
  refine ⟨?_, ?_, ?_⟩ <;> decide

/-- C1 (amended): when the working list is empty and a folder is open,
`save_annotations` removes the entry for the current image from the
in-memory `all_annotations` only — it returns before serializing,
leaving the persisted file exactly as it was and every other in-memory
entry untouched. -/
theorem save_empty_removes_entry_only_in_memory (s : Session) (fn : String)
    (hopen : ¬ (s.images_folder = none ∨ s.images_folder = some ""))
    (hfile : pyGet s.image_files s.current_image_index = some fn)
    (hempty : s.heap.getD s.current_annotation_ref [] = []) :
    (save_annotations s).file_on_disk = s.file_on_disk
    ∧ lookupKey (save_annotations s).all_annotations fn = none
    ∧ ∀ g, g ≠ fn →
        lookupKey (save_annotations s).all_annotations g = lookupKey s.all_annotations g := by
  have hsave : save_annotations s
      = { s with all_annotations := removeKey s.all_annotations fn } := by
    unfold save_annotations
    rw [if_neg hopen]
    simp only [hfile]
    rw [if_pos hempty]
  rw [hsave]
  exact ⟨rfl, lookupKey_removeKey_self _ _, fun g hg => lookupKey_removeKey_ne _ _ _ hg⟩

/-- C1 witness: the amended statement at the counterexample session. -/
theorem save_empty_removes_entry_only_in_memory_witness :
    (save_annotations sessionC1).file_on_disk = sessionC1.file_on_disk
    ∧ lookupKey (save_annotations sessionC1).all_annotations "a.png" = none :=
  ⟨(save_empty_removes_entry_only_in_memory sessionC1 "a.png" (by decide) (by decide)
      (by decide)).1,
   (save_empty_removes_entry_only_in_memory sessionC1 "a.png" (by decide) (by decide)
      (by decide)).2.1⟩

/-! ## Save/load round trip -/

theorem int_fdiv_one (x : ℤ) : x.fdiv 1 = x := by
  rcases x with m | m
  · rcases m with _ | m <;> simp [Int.fdiv]
  · simp [Int.fdiv]

theorem ofName_name (m : DrawMode) : DrawMode.ofName m.name = some m := by
  cases m <;> rfl

theorem pythonRound_int (c : ℚ) (hc : c.den = 1) : ((pythonRound c : ℤ) : ℚ) = c := by
  have hnum : (c.num : ℚ) = c := (Rat.den_eq_one_iff c).mp hc
  have hf : c.num.fdiv (c.den : ℤ) = c.num := by rw [hc]; exact int_fdiv_one _
  unfold pythonRound
  rw [hf, hnum, sub_self]
  rw [if_pos (by norm_num)]
  exact hnum

theorem map_round_int (l : List ℚ) (h : ∀ c ∈ l, c.den = 1) :
    l.map (fun c => ((pythonRound c : ℤ) : ℚ)) = l := by
  induction l with
  | nil => rfl
  | cons c cs ih =>
    simp only [List.map_cons]
    rw [pythonRound_int c (h c (List.mem_cons_self _ _)),
        ih (fun x hx => h x (List.mem_cons_of_mem _ hx))]

theorem roundRef_int (r : VisualAnnot) (h : ∀ c ∈ r.coords, c.den = 1) : roundRef r = r := by
  cases r with
  | mk coords mode =>
    unfold roundRef
    rw [map_round_int coords h]

theorem map_roundRef_int (refs : List VisualAnnot)
    (h : ∀ r ∈ refs, ∀ c ∈ r.coords, c.den = 1) : refs.map roundRef = refs := by
  induction refs with
  | nil => rfl
  | cons r rs ih =>
    simp only [List.map_cons]
    rw [roundRef_int r (h r (List.mem_cons_self _ _)),
        ih (fun x hx => h x (List.mem_cons_of_mem _ hx))]

theorem roundTurn_int (qa : QAAnnot)
    (h : ∀ refs, qa.visual_refs = some refs → ∀ r ∈ refs, ∀ c ∈ r.coords, c.den = 1) :
    roundTurn qa = qa := by
  cases qa with
  | mk role text vrefs =>
    unfold roundTurn
    rcases hrefs : vrefs with _ | refs
    · rfl
    · have hmap : refs.map roundRef = refs := map_roundRef_int refs (h refs hrefs)
      simp [hmap]

theorem map_roundTurn_int (l : List QAAnnot)
    (h : ∀ qa ∈ l, ∀ refs, qa.visual_refs = some refs →
      ∀ r ∈ refs, ∀ c ∈ r.coords, c.den = 1) :
    l.map roundTurn = l := by
  induction l with
  | nil => rfl
  | cons qa qs ih =>
    simp only [List.map_cons]
    rw [roundTurn_int qa (h qa (List.mem_cons_self _ _)),
        ih (fun x hx => h x (List.mem_cons_of_mem _ hx))]

theorem parseRefs_serialize (l : List VisualAnnot) :
    parseRefs (l.map serializeRef) = some (l.map roundRef) := by
  induction l with
  | nil => rfl
  | cons r rs ih =>
    have hcoords : (r.coords.map pythonRound).map (fun c : ℤ => (c : ℚ))
        = r.coords.map (fun c => ((pythonRound c : ℤ) : ℚ)) := by
      rw [List.map_map]; rfl
    simp only [List.map_cons, parseRefs, serializeRef, ofName_name, ih]
    rw [hcoords]
    rfl

theorem parseConvs_serialize (l : List QAAnnot)
    (h : ∀ qa ∈ l, qa.visual_refs ≠ some []) :
    parseConvs (l.map serializeTurn) = some (l.map roundTurn) := by
  induction l with
  | nil => rfl
  | cons qa qs ih =>
    have hqa := h qa (List.mem_cons_self _ _)
    have ih' := ih (fun x hx => h x (List.mem_cons_of_mem _ hx))
    rcases hrefs : qa.visual_refs with _ | refs
    · simp [parseConvs, serializeTurn, hrefs, ih', roundTurn]
    · rcases refs with _ | ⟨r, rs⟩
      · exact absurd hrefs hqa
      · have hp := parseRefs_serialize (r :: rs)
        simp only [List.map_cons] at hp
        simp [parseConvs, serializeTurn, hrefs, ih', hp, roundTurn]

theorem containsKey_eq_false {α : Type} (l : List (String × α)) (k : String)
    (h : ∀ p ∈ l, p.1 ≠ k) : containsKey l k = false := by
  induction l with
  | nil => rfl
  | cons p ps ih =>
    simp only [containsKey, List.any_cons] at *
    rw [ih (fun x hx => h x (List.mem_cons_of_mem _ hx))]
    simp [h p (List.mem_cons_self _ _)]

theorem dictInsert_fresh {α : Type} (l : List (String × α)) (k : String) (v : α)
    (h : ∀ p ∈ l, p.1 ≠ k) : dictInsert l k v = l ++ [(k, v)] := by
  unfold dictInsert
  rw [containsKey_eq_false l k h]
  simp

theorem parseAnnotations_serialize (m : List (String × List QAAnnot)) :
    ∀ acc : List (String × List QAAnnot),
      (m.map Prod.fst).Nodup →
      (∀ p ∈ m, ∀ q ∈ acc, q.1 ≠ p.1) →
      (∀ p ∈ m, ∀ qa ∈ p.2, qa.visual_refs ≠ some []) →
      parseAnnotations (serializeAll m) acc = some (acc ++ roundMapping m) := by
  induction m with
  | nil =>
    intro acc _ _ _
    simp [serializeAll, parseAnnotations, roundMapping]
  | cons p ps ih =>
    intro acc hnodup hfresh hrefs
    have hconv : parseConvs (p.2.map serializeTurn) = some (p.2.map roundTurn) :=
      parseConvs_serialize _ (hrefs p (List.mem_cons_self _ _))
    have hins : dictInsert acc p.1 (p.2.map roundTurn) = acc ++ [(p.1, p.2.map roundTurn)] :=
      dictInsert_fresh _ _ _ (fun q hq => hfresh p (List.mem_cons_self _ _) q hq)
    have hser : serializeAll (p :: ps) = ⟨p.1, p.2.map serializeTurn⟩ :: serializeAll ps := rfl
    rw [hser]
    simp only [parseAnnotations, hconv, hins]
    rw [ih (acc ++ [(p.1, p.2.map roundTurn)])
        (List.nodup_cons.mp hnodup).2
        ?_
        (fun q hq => hrefs q (List.mem_cons_of_mem _ hq))]
    · simp [roundMapping, List.append_assoc]
    · intro q hq r hr
      rcases List.mem_append.mp hr with hmem | hmem
      · exact hfresh q (List.mem_cons_of_mem _ hq) r hmem
      · have hr1 : r.1 = p.1 := by
          simp only [List.mem_singleton] at hmem
          rw [hmem]
        rw [hr1]
        have hp1 : p.1 ∉ ps.map Prod.fst := (List.nodup_cons.mp hnodup).1
        intro hqeq
        exact hp1 (hqeq ▸ List.mem_map_of_mem Prod.fst hq)

/-- C4: serializing an annotation mapping with save and parsing the
result with the loader reproduces the mapping with every coordinate
integer-rounded — roles, texts, shape kinds and the absence of
`visual_refs` are preserved exactly — and when all coordinates are
already integers the reproduction is the identity.  (The mapping is
assumed key-distinct, as any Python dictionary is, and without turns
holding `visual_refs = some []`, which the program never constructs:
the save path writes the key only for truthy lists and the load path
reads an absent key as `None`.) -/
theorem save_load_roundtrip (m : List (String × List QAAnnot))
    (hkeys : (m.map Prod.fst).Nodup)
    (hrefs : ∀ p ∈ m, ∀ qa ∈ p.2, qa.visual_refs ≠ some []) :
    loadAnnotations (serializeAll m) = some (roundMapping m)
    ∧ (IntCoords m → roundMapping m = m) := by
  constructor
  · unfold loadAnnotations
    simpa using parseAnnotations_serialize m [] hkeys (by simp) hrefs
  · intro hic
    unfold roundMapping
    have : ∀ p ∈ m, (p.1, p.2.map roundTurn) = p := by
      intro p hp
      rw [map_roundTurn_int p.2 ?_]
      intro qa hqa refs hr r hrr c hc
      apply hic p hp qa hqa r ?_ c hc
      rcases refs with _ | ⟨r0, rs0⟩
      · exact absurd hrr (List.not_mem_nil r)
      · simpa [refsList, hr] using hrr
    calc m.map (fun p => (p.1, p.2.map roundTurn)) = m.map id := List.map_congr_left this
      _ = m := List.map_id m

/-- C4 witness: one image with a human turn holding an integer-coordinate
rectangle and a region-less gpt turn survives the round trip intact. -/
theorem save_load_roundtrip_witness :
    loadAnnotations (serializeAll mExample) = some (roundMapping mExample)
    ∧ roundMapping mExample = mExample :=
  ⟨(save_load_roundtrip mExample (by decide) (by decide)).1,
   (save_load_roundtrip mExample (by decide) (by decide)).2 (by unfold IntCoords; decide)⟩

/-! ## Frame of the editing operations (aliasing of the working list) -/

theorem getD_set_ne {α : Type} (l : List α) (i j : Nat) (v d : α) (h : i ≠ j) :
    (l.set i v).getD j d = l.getD j d := by
  induction l generalizing i j with
  | nil => simp
  | cons a as ih =>
    cases i with
    | zero =>
      cases j with
      | zero => exact absurd rfl h
      | succ j => simp [List.set]
    | succ i =>
      cases j with
      | zero => simp [List.set]
      | succ j => simpa [List.set] using ih i j (fun he => h (by rw [he]))

theorem renderRefs_frame (refs : List VisualAnnot) (s : Session) :
    (renderRefs s refs).1.heap = s.heap
    ∧ (renderRefs s refs).1.all_annotations = s.all_annotations
    ∧ (renderRefs s refs).1.current_annotation_ref = s.current_annotation_ref := by
  induction refs generalizing s with
  | nil => exact ⟨rfl, rfl, rfl⟩
  | cons r rest ih =>
    rcases hld : s.canvas.load_draw r.mode
        (imageToScreenPts s.zoom_factor s.x_offset s.y_offset r.coords) with e | p
    · simp [renderRefs, hld]
    · simp only [renderRefs, hld]
      exact ih _

theorem show_qa_pair_frame (s : Session) (i : ℤ) :
    (show_qa_pair s i).1.heap = s.heap
    ∧ (show_qa_pair s i).1.all_annotations = s.all_annotations
    ∧ (show_qa_pair s i).1.current_annotation_ref = s.current_annotation_ref := by
  unfold show_qa_pair
  split
  · exact ⟨rfl, rfl, rfl⟩
  · split
    · exact ⟨rfl, rfl, rfl⟩
    · split
      · exact renderRefs_frame _ _
      · exact ⟨rfl, rfl, rfl⟩

theorem add_qa_pair_frame (s : Session) :
    ∀ s', add_qa_pair s = .ok s' →
      s'.all_annotations = s.all_annotations
      ∧ s'.current_annotation_ref = s.current_annotation_ref
      ∧ ∀ j, j ≠ s.current_annotation_ref → s'.heap.getD j [] = s.heap.getD j [] := by
  intro s' h
  unfold add_qa_pair at h
  split at h
  · cases h
    exact ⟨rfl, rfl, fun j hj => rfl⟩
  · split at h
    · cases h
    · cases h
      exact ⟨rfl, rfl, fun j hj => getD_set_ne _ _ _ _ _ (fun he => hj he.symm)⟩

theorem applyEdit_frame (s : Session) (e : EditOp) :
    (applyEdit s e).all_annotations = s.all_annotations
    ∧ (applyEdit s e).current_annotation_ref = s.current_annotation_ref
    ∧ ∀ j, j ≠ s.current_annotation_ref →
        (applyEdit s e).heap.getD j [] = s.heap.getD j [] := by
  cases e with
  | add q a =>
    have happ : applyEdit s (.add q a)
        = match add_qa_pair { s with question_entry := q, answer_entry := a } with
          | .ok s' => s'
          | .error _ => { s with question_entry := q, answer_entry := a } := rfl
    rw [happ]
    rcases hres : add_qa_pair { s with question_entry := q, answer_entry := a } with e | s'
    · exact ⟨rfl, rfl, fun j hj => rfl⟩
    · simp only [hres]
      exact add_qa_pair_frame { s with question_entry := q, answer_entry := a } s' hres
  | del i =>
    exact ⟨rfl, rfl, fun j hj => getD_set_ne _ _ _ _ _ (fun he => hj he.symm)⟩
  | clearPairs =>
    have happ : applyEdit s .clearPairs
        = { s with heap := s.heap.set s.current_annotation_ref [] } := rfl
    rw [happ]
    exact ⟨rfl, rfl, fun j hj => getD_set_ne _ _ _ _ _ (fun he => hj he.symm)⟩
  | edit row =>
    have happ : applyEdit s (.edit row)
        = match pyGet (s.heap.getD s.current_annotation_ref []) ((row / 3 * 2 : Nat) : ℤ),
                pyGet (s.heap.getD s.current_annotation_ref []) ((row / 3 * 2 + 1 : Nat) : ℤ) with
          | some q, some a =>
            (match show_qa_pair { s with question_entry := q.text, answer_entry := a.text }
                ((row / 3 * 2 : Nat) : ℤ) with
              | (s', none) => delete_qa_pair_at s' (row / 3)
              | (s', some _) => s')
          | _, _ => s := rfl
    rw [happ]
    rcases hq : pyGet (s.heap.getD s.current_annotation_ref []) ((row / 3 * 2 : Nat) : ℤ)
      with _ | q0
    · rcases hha : pyGet (s.heap.getD s.current_annotation_ref [])
        ((row / 3 * 2 + 1 : Nat) : ℤ) with _ | a0
      · simp [hq, hha]
      · simp [hq, hha]
    · rcases hha : pyGet (s.heap.getD s.current_annotation_ref [])
        ((row / 3 * 2 + 1 : Nat) : ℤ) with _ | a0
      · simp [hq, hha]
      · simp only [hq, hha]
        obtain ⟨hh, ha, hr⟩ := show_qa_pair_frame
          { s with question_entry := q0.text, answer_entry := a0.text } ((row / 3 * 2 : Nat) : ℤ)
        rcases hshow : show_qa_pair { s with question_entry := q0.text, answer_entry := a0.text }
            ((row / 3 * 2 : Nat) : ℤ) with ⟨s', _ | e⟩
        · simp only [hshow] at hh ha hr ⊢
          refine ⟨ha, hr, fun j hj => ?_⟩
          have step : (delete_qa_pair_at s' (row / 3)).heap.getD j [] = s'.heap.getD j [] := by
            apply getD_set_ne
            rw [hr]
            exact fun he => hj he.symm
          rw [step, hh]
        · simp only [hshow] at hh ha hr ⊢
          exact ⟨ha, hr, fun j hj => by rw [hh]⟩

theorem viewAll_applyEdit (s : Session) (e : EditOp) (hs : NoAlias s) :
    viewAll (applyEdit s e) = viewAll s ∧ NoAlias (applyEdit s e) := by
  obtain ⟨ha, hr, hh⟩ := applyEdit_frame s e
  constructor
  · unfold viewAll derefAll
    rw [ha]
    apply List.map_congr_left
    intro p hp
    rw [hh p.2 (hs p hp)]
  · intro p hp
    rw [hr]
    exact hs p (ha ▸ hp)

theorem fit_window_frame (env : Env) (s : Session) :
    (fit_window env s).all_annotations = s.all_annotations
    ∧ (fit_window env s).current_annotation_ref = s.current_annotation_ref := by
  unfold fit_window
  split <;> exact ⟨rfl, rfl⟩

theorem noAlias_status_fit (env : Env) (t : Session) (msg : String)
    (h : NoAlias t) : NoAlias { fit_window env t with status := msg } := by
  have ha : ({ fit_window env t with status := msg } : Session).all_annotations
      = t.all_annotations := (fit_window_frame env t).1
  have hr : ({ fit_window env t with status := msg } : Session).current_annotation_ref
      = t.current_annotation_ref := (fit_window_frame env t).2
  intro p hp
  rw [hr]
  exact h p (by rwa [ha] at hp)

/-- C7 (amended): as long as the working copy is not aliased by an
`all_annotations` entry — which holds right after `load_current_image`
installs a fresh copy — any sequence of editing operations (commit,
delete, clear, edit) leaves the value mapping denoted by
`all_annotations` unchanged.  But `save_annotations` stores the working
list itself, not a copy, so after a save of the current image the entry
aliases the working copy and subsequent edits mutate `all_annotations`
immediately (see the counterexample). -/
theorem edits_preserve_allAnnotations_before_save :
    (∀ s : Session, NoAlias s → ∀ es : List EditOp,
        viewAll (es.foldl applyEdit s) = viewAll s)
    ∧ ∀ (env : Env) (s : Session) (fn : String) (wh : ℤ × ℤ),
        RefsBounded s →
        ¬ (s.image_files = [] ∨ (s.image_files.length : ℤ) ≤ s.current_image_index) →
        pyGet s.image_files s.current_image_index = some fn →
        lookupKey env.imageSizes fn = some wh →
        NoAlias (load_current_image env s) := by
  constructor
  · intro s hs es
    induction es generalizing s with
    | nil => rfl
    | cons e rest ih =>
      have h := viewAll_applyEdit s e hs
      calc viewAll (rest.foldl applyEdit (applyEdit s e))
          = viewAll (applyEdit s e) := ih _ h.2
        _ = viewAll s := h.1
  · intro env s fn wh hb hguard hfn hwh
    unfold load_current_image
    rw [if_neg hguard]
    simp only [hfn, hwh]
    apply noAlias_status_fit
    intro p hp
    exact Nat.ne_of_lt (hb p hp)

/-- C7 counterexample: commit a pair, save (the entry now aliases the
working list), then commit another pair with no further save — the
in-memory `all_annotations` entry for the image has changed. -/
theorem edits_after_save_mutate_allAnnotations :
    lookupKey (viewAll (applyEdit (save_annotations (applyEdit session0 (.add "Q1" "A1")))
        (.add "Q2" "A2"))) "a.png"
      ≠ lookupKey (viewAll (save_annotations (applyEdit session0 (.add "Q1" "A1")))) "a.png" := by
  decide

/-- C7 witness: committing then deleting a pair in an unaliased session
leaves the saved mapping untouched. -/
theorem edits_preserve_allAnnotations_before_save_witness :
    viewAll ([EditOp.add "Q" "A", EditOp.del 0].foldl applyEdit sessionC7)
      = viewAll sessionC7 :=
  edits_preserve_allAnnotations_before_save.1 sessionC7 (by unfold NoAlias; decide)
    [EditOp.add "Q" "A", EditOp.del 0]

/-! ## Region re-display -/

theorem fdiv_two_bounds (i : ℤ) (h : 0 ≤ i) : 0 ≤ i.fdiv 2 * 2 ∧ i.fdiv 2 * 2 ≤ i := by
  rcases i with m | m
  · have hm : Int.fdiv (Int.ofNat m) 2 = Int.ofNat (m / 2) := by
      rcases m with _ | m <;> rfl
    rw [hm]
    simp only [Int.ofNat_eq_coe]
    omega
  · exact absurd h (Int.negSucc_lt_zero m).not_le

theorem mapIndexed_length (f : Nat → ℚ → ℚ) (n : Nat) (pts : List ℚ) :
    (mapIndexed f n pts).length = pts.length := by
  induction pts generalizing n with
  | nil => rfl
  | cons x xs ih => simp [mapIndexed, ih]

theorem imageToScreenPts_length (zf xo yo : ℚ) (pts : List ℚ) :
    (imageToScreenPts zf xo yo pts).length = pts.length := by
  unfold imageToScreenPts
  exact mapIndexed_length _ _ _

theorem load_draw_no_raise (c : CanvasState) (m : DrawMode) (pts : List ℚ)
    (h1 : ¬ (m = DrawMode.POLY ∧ 6 ≤ pts.length ∧ pts.length % 2 = 1))
    (h2 : ¬ (m = DrawMode.POINT ∧ pts.length < 2)) :
    ∃ p, c.load_draw m pts = .ok p := by
  rcases hld : c.load_draw m pts with e | p
  · exfalso
    unfold CanvasState.load_draw at hld
    split at hld
    · cases hld
    · split at hld
      · split at hld
        · cases hld
        · rename_i hpoly hodd
          exact h1 ⟨hpoly.1, hpoly.2, by omega⟩
      · split at hld
        · split at hld
          · cases hld
          · rename_i hpt hlen
            exact h2 ⟨hpt, by omega⟩
        · cases hld
  · exact ⟨p, rfl⟩

theorem renderRefs_proj (refs : List VisualAnnot) :
    ∀ s : Session, (∀ r ∈ refs, refRenderOk r) →
    (renderRefs s refs).1.current_draw_info.map drawProj
      = s.current_draw_info.map drawProj
        ++ refs.map (projRendered s.zoom_factor s.x_offset s.y_offset)
    ∧ (renderRefs s refs).2 = none := by
  induction refs with
  | nil => intro s _; simp [renderRefs]
  | cons r rest ih =>
    intro s h
    have hr := h r (List.mem_cons_self _ _)
    have hlen := imageToScreenPts_length s.zoom_factor s.x_offset s.y_offset r.coords
    obtain ⟨p, hp⟩ := load_draw_no_raise s.canvas r.mode
        (imageToScreenPts s.zoom_factor s.x_offset s.y_offset r.coords)
        (by rw [hlen]; exact hr.1)
        (by rw [hlen]; exact hr.2)
    simp only [renderRefs, hp]
    have hih := ih
        { s with
          canvas := p.2,
          current_draw_info := s.current_draw_info ++
            [⟨r.mode, imageToScreenPts s.zoom_factor s.x_offset s.y_offset r.coords,
              p.1, none⟩] }
        (fun x hx => h x (List.mem_cons_of_mem _ hx))
    refine ⟨?_, hih.2⟩
    rw [hih.1]
    simp [drawProj, projRendered]

/-- C8 (amended): for a valid index, provided no region of the pair's
human turn has a raising arity (POLY with an odd count of at least six
coordinates, POINT with fewer than two), `show_qa_pair` raises nothing
and re-renders exactly the regions of that human turn (element
`index // 2 * 2`), converting their stored coordinates to screen space
and appending the records to `current_draw_info`; the gpt turn's
regions are never re-displayed. -/
theorem show_qa_pair_renders_human_turn (s : Session) (index : ℤ)
    (h0 : 0 ≤ index)
    (h1 : index < ((s.heap.getD s.current_annotation_ref []).length : ℤ))
    (hwf : ∀ r ∈ refsList (((s.heap.getD s.current_annotation_ref []).get?
              (index.fdiv 2 * 2).toNat).getD ⟨"", "", none⟩), refRenderOk r) :
    (show_qa_pair s index).1.current_draw_info.map drawProj
      = s.current_draw_info.map drawProj
        ++ (refsList (((s.heap.getD s.current_annotation_ref []).get?
              (index.fdiv 2 * 2).toNat).getD ⟨"", "", none⟩)).map
            (projRendered s.zoom_factor s.x_offset s.y_offset)
    ∧ (show_qa_pair s index).2 = none := by
  have hguard : ¬ (index < 0
      ∨ ((s.heap.getD s.current_annotation_ref []).length : ℤ) ≤ index) := by
    push_neg
    exact ⟨h0, h1⟩
  obtain ⟨hz, hle⟩ := fdiv_two_bounds index h0
  have hget : pyGet (s.heap.getD s.current_annotation_ref []) (index.fdiv 2 * 2)
      = (s.heap.getD s.current_annotation_ref []).get? (index.fdiv 2 * 2).toNat := by
    unfold pyGet
    rw [if_pos (by omega)]
  have hlt : (index.fdiv 2 * 2).toNat < (s.heap.getD s.current_annotation_ref []).length := by
    omega
  obtain ⟨ann, hann⟩ : ∃ ann,
      (s.heap.getD s.current_annotation_ref []).get? (index.fdiv 2 * 2).toNat = some ann :=
    ⟨_, List.get?_eq_get hlt⟩
  unfold show_qa_pair
  rw [if_neg hguard]
  simp only [hget, hann]
  rcases hvr : ann.visual_refs with _ | refs
  · simp [refsList, hann, hvr]
  · rcases refs with _ | ⟨r, rs⟩
    · simp [refsList, hann, hvr]
    · rw [hann] at hwf
      simp only [Option.getD_some] at hwf
      unfold refsList at hwf
      rw [hvr] at hwf
      have hwf' : ∀ x ∈ (r :: rs), refRenderOk x := hwf
      have hproj := renderRefs_proj (r :: rs) { s with canvas := s.canvas.clear_all } hwf'
      refine ⟨?_, hproj.2⟩
      rw [hproj.1]
      simp [refsList, hann, hvr]

/-- C8 counterexample: a pair whose gpt turn carries a point region and
whose human turn carries none — `show_qa_pair` re-displays nothing at
all (and raises nothing), although the claim requires every region of
both turns to be re-displayed. -/
theorem show_qa_pair_ignores_gpt_regions :
    (show_qa_pair sessionC8 0).1.current_draw_info = []
    ∧ (show_qa_pair sessionC8 0).1.canvas.items = []
    ∧ (show_qa_pair sessionC8 0).2 = none
    ∧ (sessionC8.heap.getD sessionC8.current_annotation_ref []).get? 1
        = some ⟨"gpt", "A", some [⟨[3, 4], DrawMode.POINT⟩]⟩ := by
  refine ⟨?_, ?_, ?_, ?_⟩ <;> decide

/-- C8 witness: the amended statement at a session whose human turn
holds one rectangle region. -/
theorem show_qa_pair_renders_human_turn_witness :
    ((show_qa_pair sessionC8b 0).1.current_draw_info.map drawProj
      = sessionC8b.current_draw_info.map drawProj
        ++ (refsList (((sessionC8b.heap.getD sessionC8b.current_annotation_ref []).get?
              ((0 : ℤ).fdiv 2 * 2).toNat).getD ⟨"", "", none⟩)).map
            (projRendered sessionC8b.zoom_factor sessionC8b.x_offset sessionC8b.y_offset))
    ∧ (show_qa_pair sessionC8b 0).2 = none :=
  show_qa_pair_renders_human_turn sessionC8b 0 (by decide) (by decide) (by decide)

/-! ## Edit-then-commit crash -/

/-- C10 (code bug): after `edit_qa_pair` restores a pair whose human
turn carries a region, the re-rendered pending record lacks the `is_Q`
key (`show_qa_pair` does not set it), so the subsequent commit
(`add_qa_pair`) with non-empty texts raises `KeyError` instead of
re-committing the pair. -/
theorem add_qa_pair_keyerror (s : Session)
    (hq : ¬ pyStrip s.question_entry = "")
    (ha : ¬ pyStrip s.answer_entry = "")
    (hd : partitionDrawInfo s.current_draw_info [] [] = .error "KeyError: is_Q") :
    add_qa_pair s = .error "KeyError: is_Q" := by
  unfold add_qa_pair
  rw [if_neg (by tauto)]
  simp only [hd]

theorem add_after_edit_raises_keyerror :
    (edit_qa_pair sessionC10 (some 0)).current_draw_info
      = [⟨DrawMode.RECT, [1, 2, 3, 4], some 1, none⟩]
    ∧ add_qa_pair (edit_qa_pair sessionC10 (some 0)) = .error "KeyError: is_Q" := by
  have hedit : (edit_qa_pair sessionC10 (some 0)).current_draw_info
        = [⟨DrawMode.RECT, [1, 2, 3, 4], some 1, none⟩]
      ∧ (edit_qa_pair sessionC10 (some 0)).question_entry = "Q"
      ∧ (edit_qa_pair sessionC10 (some 0)).answer_entry = "A" := by
    norm_num [edit_qa_pair, sessionC10, session0, pyGet, show_qa_pair, renderRefs,
      imageToScreenPts, mapIndexed, delete_qa_pair_at, CanvasState.clear_all,
      CanvasState.clear_item, CanvasState.load_draw, initCanvas]
  refine ⟨hedit.1, ?_⟩
  apply add_qa_pair_keyerror
  · rw [hedit.2.1]
    decide
  · rw [hedit.2.2]
    decide
  · rw [hedit.1]
    rfl

end VQA
